import Mathlib

/-!
# ArxLibertatis filesystem layer (`src/io/Filesystem.h`, `src/io/FilesystemBoost.cpp`)

A shallow embedding of the boost-backed filesystem adapter.  Every function of
`FilesystemBoost.cpp` creates a fresh `error_code`, hands it to one call of the
boost filesystem library and turns the outcome into a boolean, a sentinel or a
value.  The boost library is an external collaborator: it is represented by a
record `fs_boost.Backend` of functions over an explicit filesystem state, and
the adapter functions are written over an arbitrary such record.
-/

set_option autoImplicit false

/-! ## The backend interface (`namespace fs_boost = boost::filesystem`) -/

namespace fs_boost

/-- The type `boost::system::error_code`.  Only its numeric value matters here:
in a condition the code is true exactly when the value is nonzero. -/
structure error_code where
  value : Int
deriving DecidableEq, Repr

/-- The conversion to bool used by `!ec` and `ec ? a : b`. -/
def error_code.failed (ec : error_code) : Bool := ec.value != 0

/-- The enumeration `boost::filesystem::file_type`. -/
inductive file_type where
  | status_error
  | file_not_found
  | regular_file
  | directory_file
  | symlink_file
  | block_file
  | character_file
  | fifo_file
  | socket_file
  | type_unknown
deriving DecidableEq, Repr

/-- The class `boost::filesystem::file_status`, reduced to its file type. -/
structure file_status where
  type : file_type
deriving DecidableEq, Repr

/-- The overload `boost::filesystem::is_directory(file_status)`. -/
def is_directory (f : file_status) : Bool := decide (f.type = file_type.directory_file)

/-- The overload `boost::filesystem::is_regular_file(file_status)`. -/
def is_regular_file (f : file_status) : Bool := decide (f.type = file_type.regular_file)

/-- The enumeration `boost::filesystem::copy_option`. -/
inductive copy_option where
  | fail_if_exists
  | overwrite_if_exists
deriving DecidableEq, Repr

/-- What a backend query leaves behind: the returned value and the error code
written through the `ec` reference. -/
structure Reply (α : Type) where
  value : α
  ec : error_code
deriving DecidableEq, Repr

/-- What a mutating backend call leaves behind: the returned value, the error
code and the filesystem after the call. -/
structure Outcome (σ α : Type) where
  value : α
  ec : error_code
  state : σ

/-- The calls of `boost::filesystem` used by the adapter, over a filesystem
state `σ` and an iteration handle type `H` (`fs_boost::directory_iterator`).
Sizes are `uintmax_t` and times are `std::time_t`, both as unbounded integers. -/
structure Backend (σ H : Type) where
  «exists» : String → σ → Reply Bool
  is_directory : String → σ → Reply Bool
  is_regular_file : String → σ → Reply Bool
  last_write_time : String → σ → Reply Int
  file_size : String → σ → Reply Nat
  remove : String → σ → Outcome σ Bool
  remove_all : String → σ → Outcome σ Nat
  create_directory : String → σ → Outcome σ Bool
  create_directories : String → σ → Outcome σ Bool
  copy_file : String → String → copy_option → σ → Outcome σ Unit
  rename : String → String → σ → Outcome σ Unit
  /-- The constructor `directory_iterator(p, ec)`. -/
  dir_open : String → σ → Reply H
  /-- The default constructor `directory_iterator()`: the end iterator. -/
  dir_end : H
  /-- The member `increment(ec)`: the handle after the call. -/
  dir_increment : H → σ → Reply H
  /-- The expression `->path().filename().string()`. -/
  dir_filename : H → String
  /-- The expression `->status(ec)`. -/
  dir_status : H → σ → Reply file_status

end fs_boost

/-! ## The adapter (`namespace fs`) -/

namespace fs

open fs_boost (error_code Reply Outcome Backend copy_option)

/-- Modelled from the spec: the class `fs::path` of `io/FilePath.h` is only
forward declared in `Filesystem.h`.  The spec describes it as an opaque
immutable value with a string conversion and an emptiness check. -/
structure path where
  pathstr : String
deriving DecidableEq, Repr

/-- Modelled from the spec: the string conversion `p.string()`. -/
def path.string (p : path) : String := p.pathstr

/-- Modelled from the spec: the emptiness check `p.empty()`. -/
def path.empty (p : path) : Bool := p.pathstr.isEmpty

/-- The cast `(u64)x` of a signed value to an unsigned 64-bit integer. -/
def u64_of_int (i : Int) : Nat := (i % (2 : Int) ^ 64).toNat

/-- The cast `(u64)size` of a `uintmax_t` to an unsigned 64-bit integer. -/
def u64_of_uintmax (n : Nat) : Nat := n % 2 ^ 64

section adapter

variable {σ H : Type}

/-- `bool exists(const path & p)` -/
def «exists» (B : Backend σ H) (p : path) (s : σ) : Bool :=
  let r := B.exists p.string s
  r.value && !r.ec.failed

/-- `bool is_directory(const path & p)` -/
def is_directory (B : Backend σ H) (p : path) (s : σ) : Bool :=
  let r := B.is_directory p.string s
  r.value && !r.ec.failed

/-- `bool is_regular_file(const path & p)` -/
def is_regular_file (B : Backend σ H) (p : path) (s : σ) : Bool :=
  let r := B.is_regular_file p.string s
  r.value && !r.ec.failed

/-- `std::time_t last_write_time(const path & p)` -/
def last_write_time (B : Backend σ H) (p : path) (s : σ) : Int :=
  let r := B.last_write_time p.string s
  if r.ec.failed then 0 else r.value

/-- `u64 file_size(const path & p)` -/
def file_size (B : Backend σ H) (p : path) (s : σ) : Nat :=
  let r := B.file_size p.string s
  if r.ec.failed then u64_of_int (-1) else u64_of_uintmax r.value

/-- `bool remove(const path & p)`: the result and the filesystem afterwards. -/
def remove (B : Backend σ H) (p : path) (s : σ) : Bool × σ :=
  let r := B.remove p.string s
  (!r.ec.failed, r.state)

/-- `bool remove_all(const path & p)` -/
def remove_all (B : Backend σ H) (p : path) (s : σ) : Bool × σ :=
  let r := B.remove_all p.string s
  (!r.ec.failed, r.state)

/-- `bool create_directory(const path & p)` -/
def create_directory (B : Backend σ H) (p : path) (s : σ) : Bool × σ :=
  let r := B.create_directory p.string s
  (!r.ec.failed, r.state)

/-- `bool create_directories(const path & p)` -/
def create_directories (B : Backend σ H) (p : path) (s : σ) : Bool × σ :=
  let r := B.create_directories p.string s
  (!r.ec.failed, r.state)

/-- `bool copy_file(const path & from_p, const path & to_p, bool overwrite)` -/
def copy_file (B : Backend σ H) (from_p to_p : path) (overwrite : Bool) (s : σ) : Bool × σ :=
  let o := if overwrite then copy_option.overwrite_if_exists else copy_option.fail_if_exists
  let r := B.copy_file from_p.string to_p.string o s
  (!r.ec.failed, r.state)

/-- `bool rename(const path & old_p, const path & new_p)` -/
def rename (B : Backend σ H) (old_p new_p : path) (s : σ) : Bool × σ :=
  let r := B.rename old_p.string new_p.string s
  (!r.ec.failed, r.state)

/-- `class directory_iterator`: the object owns one backend handle. -/
structure directory_iterator (H : Type) where
  handle : H
deriving DecidableEq, Repr

/-- `directory_iterator::directory_iterator(const fs::path & p)`, the constructor
(a definition named like its own type would shadow the type). -/
def directory_iterator.ctor (B : Backend σ H) (p : path) (s : σ) :
    directory_iterator H :=
  let r := B.dir_open (if p.empty then "./" else p.string) s
  if r.ec.failed then ⟨B.dir_end⟩ else ⟨r.value⟩

/-- `directory_iterator & directory_iterator::operator++()` -/
def directory_iterator.«operator++» (B : Backend σ H) (it : directory_iterator H) (s : σ) :
    directory_iterator H :=
  let r := B.dir_increment it.handle s
  if r.ec.failed then ⟨B.dir_end⟩ else ⟨r.value⟩

/-- `bool directory_iterator::end()` -/
def directory_iterator.«end» [DecidableEq H] (B : Backend σ H) (it : directory_iterator H) :
    Bool :=
  decide (it.handle = B.dir_end)

/-- `string directory_iterator::name()` -/
def directory_iterator.name (B : Backend σ H) (it : directory_iterator H) : String :=
  B.dir_filename it.handle

/-- `bool directory_iterator::is_directory()` -/
def directory_iterator.is_directory (B : Backend σ H) (it : directory_iterator H) (s : σ) :
    Bool :=
  let r := B.dir_status it.handle s
  fs_boost.is_directory r.value && !r.ec.failed

/-- `bool directory_iterator::is_regular_file()` -/
def directory_iterator.is_regular_file (B : Backend σ H) (it : directory_iterator H) (s : σ) :
    Bool :=
  let r := B.dir_status it.handle s
  fs_boost.is_regular_file r.value && !r.ec.failed

/-- The iterator after `k` calls of `operator++` on an unchanged filesystem. -/
def directory_iterator.advance (B : Backend σ H) (s : σ) :
    Nat → directory_iterator H → directory_iterator H
  | 0, it => it
  | k + 1, it => directory_iterator.advance B s k (directory_iterator.«operator++» B it s)

end adapter

end fs

/-! ## Directories as the backend enumerates them -/

namespace fs_boost

/-- `B.lists s n h`: starting from handle `h` the backend delivers exactly `n`
entries without an error: `h` and the next `n - 1` handles are positioned at an
entry, every `increment` between them succeeds, and the `n`-th `increment`
yields the end iterator. -/
def Backend.lists {σ H : Type} [DecidableEq H] (B : Backend σ H) (s : σ) : Nat → H → Bool
  | 0, h => decide (h = B.dir_end)
  | n + 1, h =>
    decide (h ≠ B.dir_end) && !(B.dir_increment h s).ec.failed
      && Backend.lists B s n (B.dir_increment h s).value

end fs_boost

/-! ## A reference backend: an in-memory filesystem

`fs_boost.Backend` is a parameter of the adapter.  To have one concrete backend
at which statements can be evaluated, `memfs` gives the boost calls on a small
in-memory filesystem with POSIX error numbers. -/

namespace memfs

open fs_boost (error_code Reply Outcome Backend copy_option file_status file_type)

/-- Modelled from the spec: the native filesystem backend is an external
collaborator (boost::filesystem over the operating system).  A node of the
in-memory filesystem is a regular file with its bytes or a directory, each with
a modification time. -/
inductive Node where
  | file (mtime : Int) (content : List Nat)
  | dir (mtime : Int)
deriving DecidableEq, Repr

/-- Modelled from the spec: the modification time of a node. -/
def Node.mtime : Node → Int
  | Node.file m _ => m
  | Node.dir m => m

/-- Modelled from the spec: a location in the in-memory filesystem, the path
components below the current directory. -/
abbrev Key := List String

/-- Modelled from the spec: the state of the in-memory filesystem, a clock and
the nodes by location.  The current directory is the root `[]`, which always
exists and is not stored. -/
structure World where
  clock : Int
  nodes : List (Key × Node)
deriving DecidableEq, Repr

/-- Modelled from the spec: the error code of a call that succeeded. -/
def ok : error_code := ⟨0⟩

/-- Modelled from the spec: the error number "operation not permitted". -/
def EPERM : error_code := ⟨1⟩

/-- Modelled from the spec: the error number "no such file or directory". -/
def ENOENT : error_code := ⟨2⟩

/-- Modelled from the spec: the error number "input/output error". -/
def EIO : error_code := ⟨5⟩

/-- Modelled from the spec: the error number "permission denied". -/
def EACCES : error_code := ⟨13⟩

/-- Modelled from the spec: the error number "device or resource busy". -/
def EBUSY : error_code := ⟨16⟩

/-- Modelled from the spec: the error number "file exists". -/
def EEXIST : error_code := ⟨17⟩

/-- Modelled from the spec: the error number "not a directory". -/
def ENOTDIR : error_code := ⟨20⟩

/-- Modelled from the spec: the error number "is a directory". -/
def EISDIR : error_code := ⟨21⟩

/-- Modelled from the spec: the error number "invalid argument". -/
def EINVAL : error_code := ⟨22⟩

/-- Modelled from the spec: the error number "directory not empty". -/
def ENOTEMPTY : error_code := ⟨39⟩

/-- Modelled from the spec: splits a path string at every `/`. -/
def splitAux : List Char → List Char → List String
  | [], acc => [String.mk acc.reverse]
  | c :: cs, acc =>
    if c = '/' then String.mk acc.reverse :: splitAux cs [] else splitAux cs (c :: acc)

/-- Modelled from the spec: the location a path string names, its components
without the empty ones and without `.`, so that `./`, `a//b` and `./a/b`
resolve as the system does. -/
def resolve (p : String) : Key :=
  (splitAux p.data []).filter (fun c => c != "" && c != ".")

/-- Modelled from the spec: the node at a location. -/
def find (w : World) (k : Key) : Option Node :=
  if k = [] then some (Node.dir 0) else w.nodes.lookup k

/-- Modelled from the spec: the node a path string names; the empty string
names nothing. -/
def stat (w : World) (p : String) : Option Node :=
  if p.isEmpty then none else find w (resolve p)

/-- Modelled from the spec: the locations directly inside the directory at `k`. -/
def children (w : World) (k : Key) : List Key :=
  (w.nodes.filter (fun e => e.1 != [] && e.1.dropLast == k)).map (fun e => e.1)

/-- Modelled from the spec: the filesystem without the node at `k`. -/
def erase (w : World) (k : Key) : World :=
  ⟨w.clock + 1, w.nodes.filter (fun e => e.1 != k)⟩

/-- Modelled from the spec: the filesystem with node `n` at `k`, replacing what
was there. -/
def put (w : World) (k : Key) (n : Node) : World :=
  ⟨w.clock + 1, (k, n) :: w.nodes.filter (fun e => e.1 != k)⟩

/-- Modelled from the spec: the bytes of the regular file a path string names. -/
def read (w : World) (p : String) : Option (List Nat) :=
  match stat w p with
  | some (Node.file _ c) => some c
  | _ => none

/-- Modelled from the spec: the backend call `exists`; a missing path is not an
error. -/
def «exists» (p : String) (w : World) : Reply Bool :=
  ⟨(stat w p).isSome, ok⟩

/-- Modelled from the spec: the backend call `is_directory`. -/
def is_directory (p : String) (w : World) : Reply Bool :=
  match stat w p with
  | some (Node.dir _) => ⟨true, ok⟩
  | _ => ⟨false, ok⟩

/-- Modelled from the spec: the backend call `is_regular_file`. -/
def is_regular_file (p : String) (w : World) : Reply Bool :=
  match stat w p with
  | some (Node.file _ _) => ⟨true, ok⟩
  | _ => ⟨false, ok⟩

/-- Modelled from the spec: the backend call `last_write_time`; a missing path is
an error. -/
def last_write_time (p : String) (w : World) : Reply Int :=
  match stat w p with
  | some n => ⟨n.mtime, ok⟩
  | none => ⟨-1, ENOENT⟩

/-- Modelled from the spec: the backend call `file_size`; a missing path and a
directory are errors. -/
def file_size (p : String) (w : World) : Reply Nat :=
  match stat w p with
  | some (Node.file _ c) => ⟨c.length, ok⟩
  | some (Node.dir _) => ⟨2 ^ 64 - 1, EPERM⟩
  | none => ⟨2 ^ 64 - 1, ENOENT⟩

/-- Modelled from the spec: the backend call `remove`.  It removes a file or an
empty directory; a missing path is not an error and
gives `false`; a non-empty directory is rejected with `ENOTEMPTY`. -/
def remove (p : String) (w : World) : Outcome World Bool :=
  match stat w p with
  | none => ⟨false, ok, w⟩
  | some (Node.file _ _) => ⟨true, ok, erase w (resolve p)⟩
  | some (Node.dir _) =>
    if resolve p = [] then ⟨false, EBUSY, w⟩
    else if children w (resolve p) ≠ [] then ⟨false, ENOTEMPTY, w⟩
    else ⟨true, ok, erase w (resolve p)⟩

/-- Modelled from the spec: the backend call `remove_all`.  It removes a file or
a whole directory tree and counts the removed nodes; a missing path is not an
error. -/
def remove_all (p : String) (w : World) : Outcome World Nat :=
  match stat w p with
  | none => ⟨0, ok, w⟩
  | some _ =>
    if resolve p = [] then ⟨0, EBUSY, w⟩
    else
      ⟨(w.nodes.filter (fun e => (resolve p).isPrefixOf e.1)).length, ok,
        ⟨w.clock + 1, w.nodes.filter (fun e => !(resolve p).isPrefixOf e.1)⟩⟩

/-- Modelled from the spec: the backend call `create_directory`.  It creates one
directory level below an existing directory; an existing directory is not an error and
gives `false`. -/
def create_directory (p : String) (w : World) : Outcome World Bool :=
  match stat w p with
  | some (Node.dir _) => ⟨false, ok, w⟩
  | some (Node.file _ _) => ⟨false, EEXIST, w⟩
  | none =>
    if p.isEmpty then ⟨false, ENOENT, w⟩
    else
      match find w (resolve p).dropLast with
      | some (Node.dir _) => ⟨true, ok, put w (resolve p) (Node.dir w.clock)⟩
      | some (Node.file _ _) => ⟨false, ENOTDIR, w⟩
      | none => ⟨false, ENOENT, w⟩

/-- Modelled from the spec: creates the directories `done ++ [c₁]`,
`done ++ [c₁, c₂]`, ... in turn, unless they exist. -/
def mkdirs : List String → Key → Bool → World → Outcome World Bool
  | [], _, made, w => ⟨made, ok, w⟩
  | c :: cs, done, made, w =>
    match find w (done ++ [c]) with
    | some (Node.dir _) => mkdirs cs (done ++ [c]) made w
    | some (Node.file _ _) => ⟨false, ENOTDIR, w⟩
    | none => mkdirs cs (done ++ [c]) true (put w (done ++ [c]) (Node.dir w.clock))

/-- Modelled from the spec: the backend call `create_directories`.  It creates a
directory and its missing ancestors. -/
def create_directories (p : String) (w : World) : Outcome World Bool :=
  if p.isEmpty then ⟨false, ENOENT, w⟩ else mkdirs (resolve p) [] false w

/-- Modelled from the spec: the backend call `copy_file`.  The source must be a
regular file; an existing destination is replaced under `overwrite_if_exists`
when it is another regular file and rejected under `fail_if_exists`; a
directory as destination and a copy of a file onto itself are rejected. -/
def copy_file (from_p to_p : String) (o : copy_option) (w : World) : Outcome World Unit :=
  match stat w from_p with
  | none => ⟨(), ENOENT, w⟩
  | some (Node.dir _) => ⟨(), EISDIR, w⟩
  | some (Node.file _ c) =>
    match stat w to_p with
    | some (Node.dir _) =>
      if o = copy_option.fail_if_exists then ⟨(), EEXIST, w⟩ else ⟨(), EISDIR, w⟩
    | some (Node.file _ _) =>
      if o = copy_option.fail_if_exists then ⟨(), EEXIST, w⟩
      else if resolve from_p = resolve to_p then ⟨(), EEXIST, w⟩
      else ⟨(), ok, put w (resolve to_p) (Node.file w.clock c)⟩
    | none =>
      if to_p.isEmpty then ⟨(), ENOENT, w⟩
      else
        match find w (resolve to_p).dropLast with
        | some (Node.dir _) => ⟨(), ok, put w (resolve to_p) (Node.file w.clock c)⟩
        | some (Node.file _ _) => ⟨(), ENOTDIR, w⟩
        | none => ⟨(), ENOENT, w⟩

/-- Modelled from the spec: moves the node at `a` and everything below it to `b`. -/
def move (w : World) (a b : Key) : World :=
  ⟨w.clock + 1,
    (w.nodes.filter (fun e => e.1 != b)).map
      (fun e => if a.isPrefixOf e.1 then (b ++ e.1.drop a.length, e.2) else e)⟩

/-- Modelled from the spec: the backend call `rename`.  An existing destination
is replaced when it is a file (for a file) or an empty directory (for a
directory); a directory cannot be moved below itself. -/
def rename (old_p new_p : String) (w : World) : Outcome World Unit :=
  match stat w old_p with
  | none => ⟨(), ENOENT, w⟩
  | some src =>
    if new_p.isEmpty then ⟨(), ENOENT, w⟩
    else if resolve old_p = [] ∨ resolve new_p = [] then ⟨(), EBUSY, w⟩
    else if resolve old_p = resolve new_p then ⟨(), ok, w⟩
    else
      match find w (resolve new_p).dropLast with
      | none => ⟨(), ENOENT, w⟩
      | some (Node.file _ _) => ⟨(), ENOTDIR, w⟩
      | some (Node.dir _) =>
        match src, find w (resolve new_p) with
        | Node.file _ _, none => ⟨(), ok, move w (resolve old_p) (resolve new_p)⟩
        | Node.file _ _, some (Node.file _ _) =>
          ⟨(), ok, move w (resolve old_p) (resolve new_p)⟩
        | Node.file _ _, some (Node.dir _) => ⟨(), EISDIR, w⟩
        | Node.dir _, some (Node.file _ _) => ⟨(), ENOTDIR, w⟩
        | Node.dir _, none =>
          if (resolve old_p).isPrefixOf (resolve new_p) then ⟨(), EINVAL, w⟩
          else ⟨(), ok, move w (resolve old_p) (resolve new_p)⟩
        | Node.dir _, some (Node.dir _) =>
          if (resolve old_p).isPrefixOf (resolve new_p) then ⟨(), EINVAL, w⟩
          else if children w (resolve new_p) ≠ [] then ⟨(), ENOTEMPTY, w⟩
          else ⟨(), ok, move w (resolve old_p) (resolve new_p)⟩

/-- Modelled from the spec: the backend constructor `directory_iterator(p, ec)`.
The handle holds the locations still to be visited, the
first of them being the current entry; the end iterator holds none. -/
def dir_open (p : String) (w : World) : Reply (List Key) :=
  match stat w p with
  | some (Node.dir _) => ⟨children w (resolve p), ok⟩
  | some (Node.file _ _) => ⟨[], ENOTDIR⟩
  | none => ⟨[], ENOENT⟩

/-- Modelled from the spec: the backend call `increment(ec)`, which drops the
current entry. -/
def dir_increment (h : List Key) (_w : World) : Reply (List Key) :=
  ⟨h.tail, ok⟩

/-- Modelled from the spec: the file name of the current entry. -/
def dir_filename (h : List Key) : String :=
  match h with
  | [] => ""
  | k :: _ => k.getLastD ""

/-- Modelled from the spec: the status of the current entry, looked up in the
filesystem at the time of the call. -/
def dir_status (h : List Key) (w : World) : Reply file_status :=
  match h with
  | [] => ⟨⟨file_type.status_error⟩, EINVAL⟩
  | k :: _ =>
    match find w k with
    | some (Node.dir _) => ⟨⟨file_type.directory_file⟩, ok⟩
    | some (Node.file _ _) => ⟨⟨file_type.regular_file⟩, ok⟩
    | none => ⟨⟨file_type.file_not_found⟩, ok⟩

/-- Modelled from the spec: the reference backend, the boost calls of the
adapter on the in-memory filesystem. -/
def backend : Backend World (List Key) where
  «exists» := memfs.exists
  is_directory := memfs.is_directory
  is_regular_file := memfs.is_regular_file
  last_write_time := memfs.last_write_time
  file_size := memfs.file_size
  remove := memfs.remove
  remove_all := memfs.remove_all
  create_directory := memfs.create_directory
  create_directories := memfs.create_directories
  copy_file := memfs.copy_file
  rename := memfs.rename
  dir_open := memfs.dir_open
  dir_end := []
  dir_increment := memfs.dir_increment
  dir_filename := memfs.dir_filename
  dir_status := memfs.dir_status

/-- Modelled from the spec: the reference backend on a filesystem whose
directories cannot be read: opening one is refused with `EACCES`, reading on
fails with `EIO`, and so does asking an entry for its status. -/
def refusing : Backend World (List Key) where
  «exists» := memfs.exists
  is_directory := memfs.is_directory
  is_regular_file := memfs.is_regular_file
  last_write_time := memfs.last_write_time
  file_size := memfs.file_size
  remove := memfs.remove
  remove_all := memfs.remove_all
  create_directory := memfs.create_directory
  create_directories := memfs.create_directories
  copy_file := memfs.copy_file
  rename := memfs.rename
  dir_open := fun _ _ => ⟨[], EACCES⟩
  dir_end := []
  dir_increment := fun _ _ => ⟨[], EIO⟩
  dir_filename := memfs.dir_filename
  dir_status := fun _ _ => ⟨⟨file_type.status_error⟩, EIO⟩

/-- Modelled from the spec: a sample filesystem, holding a file `a` with bytes
1 2 3, a file `b` with byte 9, a directory `d` with the files `d/f` and `d/g`,
and an empty directory `e`. -/
def sample : World :=
  ⟨10,
    [(["a"], Node.file 1 [1, 2, 3]),
     (["b"], Node.file 2 [9]),
     (["d"], Node.dir 3),
     (["d", "f"], Node.file 4 [7]),
     (["d", "g"], Node.file 5 []),
     (["e"], Node.dir 6)]⟩

end memfs

/-! ## Lemmas on the adapter -/

namespace fs

open fs_boost (error_code Reply Outcome Backend copy_option file_status file_type)

section lemmas

variable {σ H : Type}

theorem u64_of_int_neg_one : u64_of_int (-1) = 2 ^ 64 - 1 := by decide

theorem and_not_failed (v f : Bool) : (v && !f) = if f then false else v := by
  cases v <;> cases f <;> rfl

theorem not_eq_false_iff (f : Bool) : ((!f) = false ↔ f = true) := by
  cases f <;> simp

theorem not_eq_true_iff (f : Bool) : ((!f) = true ↔ f = false) := by
  cases f <;> simp

theorem end_mk_dir_end [DecidableEq H] (B : Backend σ H) :
    directory_iterator.«end» B ⟨B.dir_end⟩ = true := by
  simp [directory_iterator.«end»]

theorem end_eq_true_iff [DecidableEq H] (B : Backend σ H) (it : directory_iterator H) :
    directory_iterator.«end» B it = true ↔ it.handle = B.dir_end := by
  simp [directory_iterator.«end»]

theorem end_eq_false_iff [DecidableEq H] (B : Backend σ H) (it : directory_iterator H) :
    directory_iterator.«end» B it = false ↔ it.handle ≠ B.dir_end := by
  simp [directory_iterator.«end»]

/-- After a successful `increment` the iterator holds the backend's handle. -/
theorem increment_of_ok (B : Backend σ H) (it : directory_iterator H) (s : σ)
    (h : (B.dir_increment it.handle s).ec.failed = false) :
    directory_iterator.«operator++» B it s = ⟨(B.dir_increment it.handle s).value⟩ := by
  simp [directory_iterator.«operator++», h]

/-- After a failed `increment` the iterator holds the end handle. -/
theorem increment_of_failed (B : Backend σ H) (it : directory_iterator H) (s : σ)
    (h : (B.dir_increment it.handle s).ec.failed = true) :
    directory_iterator.«operator++» B it s = ⟨B.dir_end⟩ := by
  simp [directory_iterator.«operator++», h]

/-- On a listing of `n` entries, `end()` is false after `k < n` advances. -/
theorem advance_not_end [DecidableEq H] (B : Backend σ H) (s : σ) :
    ∀ (n : Nat) (h : H), B.lists s n h = true → ∀ k, k < n →
      directory_iterator.«end» B (directory_iterator.advance B s k ⟨h⟩) = false := by
  intro n
  induction n with
  | zero => intro h _ k hk; omega
  | succ n ih =>
    intro h hl k hk
    simp only [Backend.lists, Bool.and_eq_true, decide_eq_true_eq, Bool.not_eq_true'] at hl
    obtain ⟨⟨hne, hok⟩, hrest⟩ := hl
    cases k with
    | zero => simpa [directory_iterator.advance, directory_iterator.«end»] using hne
    | succ k =>
      have hstep :
          directory_iterator.«operator++» B ⟨h⟩ s = ⟨(B.dir_increment h s).value⟩ :=
        increment_of_ok B ⟨h⟩ s hok
      simp only [directory_iterator.advance, hstep]
      exact ih _ hrest k (by omega)

/-- On a listing of `n` entries, `end()` is true after `n` advances. -/
theorem advance_end [DecidableEq H] (B : Backend σ H) (s : σ) :
    ∀ (n : Nat) (h : H), B.lists s n h = true →
      directory_iterator.«end» B (directory_iterator.advance B s n ⟨h⟩) = true := by
  intro n
  induction n with
  | zero =>
    intro h hl
    simpa [Backend.lists, directory_iterator.advance, directory_iterator.«end»] using hl
  | succ n ih =>
    intro h hl
    simp only [Backend.lists, Bool.and_eq_true, decide_eq_true_eq, Bool.not_eq_true'] at hl
    obtain ⟨⟨_, hok⟩, hrest⟩ := hl
    have hstep :
        directory_iterator.«operator++» B ⟨h⟩ s = ⟨(B.dir_increment h s).value⟩ :=
      increment_of_ok B ⟨h⟩ s hok
    simp only [directory_iterator.advance, hstep]
    exact ih _ hrest

end lemmas

end fs

/-! ## Lemmas on the reference backend -/

namespace memfs

open fs_boost (error_code Reply Outcome Backend copy_option file_status file_type)

theorem lookup_filter_self (k : Key) (l : List (Key × Node)) :
    (l.filter (fun e => e.1 != k)).lookup k = none := by
  induction l with
  | nil => rfl
  | cons e l ih =>
    obtain ⟨a, n⟩ := e
    by_cases h : a = k
    · have hb : (a != k) = false := by simp [h]
      rw [List.filter_cons]
      simp only [hb, Bool.false_eq_true, if_false]
      exact ih
    · have hb : (a != k) = true := by simpa using h
      have hk : (k == a) = false := by simpa using fun h' => h h'.symm
      rw [List.filter_cons]
      simp only [hb, if_true, List.lookup_cons, hk]
      exact ih

theorem lookup_filter_ne (k k' : Key) (hne : k' ≠ k) (l : List (Key × Node)) :
    (l.filter (fun e => e.1 != k)).lookup k' = l.lookup k' := by
  induction l with
  | nil => rfl
  | cons e l ih =>
    obtain ⟨a, n⟩ := e
    by_cases h : a = k
    · have hb : (a != k) = false := by simp [h]
      have hk : (k' == a) = false := by simpa [h] using hne
      rw [List.filter_cons]
      simp only [hb, Bool.false_eq_true, if_false, List.lookup_cons, hk]
      exact ih
    · have hb : (a != k) = true := by simpa using h
      rw [List.filter_cons]
      simp only [hb, if_true, List.lookup_cons]
      cases hka : (k' == a) with
      | true => rfl
      | false => exact ih

theorem find_erase_self (w : World) (k : Key) (hk : k ≠ []) : find (erase w k) k = none := by
  simp [find, erase, hk, lookup_filter_self]

theorem find_put_self (w : World) (k : Key) (n : Node) (hk : k ≠ []) :
    find (put w k n) k = some n := by
  simp [find, put, hk, List.lookup]

theorem find_put_ne (w : World) (k k' : Key) (n : Node) (hne : k' ≠ k) :
    find (put w k n) k' = find w k' := by
  by_cases h0 : k' = []
  · simp [find, h0]
  · have hk : (k' == k) = false := by simpa using hne
    simp [find, put, h0, List.lookup, hk, lookup_filter_ne k k' hne]

theorem find_nil (w : World) : find w [] = some (Node.dir 0) := by
  simp [find]

/-- A path string that names a regular file is not empty and does not resolve to
the root. -/
theorem stat_file (w : World) (p : String) (m : Int) (c : List Nat)
    (h : stat w p = some (Node.file m c)) :
    p.isEmpty = false ∧ resolve p ≠ [] ∧ find w (resolve p) = some (Node.file m c) := by
  unfold stat at h
  by_cases hp : p.isEmpty = true
  · simp [hp] at h
  · simp only [hp] at h
    refine ⟨by simpa using hp, ?_, by simpa using h⟩
    intro hr
    rw [hr, find_nil] at h
    simp at h

/-- A path string that names a directory is not empty. -/
theorem stat_dir (w : World) (p : String) (m : Int) (h : stat w p = some (Node.dir m)) :
    p.isEmpty = false ∧ find w (resolve p) = some (Node.dir m) := by
  unfold stat at h
  by_cases hp : p.isEmpty = true
  · simp [hp] at h
  · simp only [hp] at h
    exact ⟨by simpa using hp, by simpa using h⟩

theorem stat_erase_self (w : World) (p : String) (hk : resolve p ≠ []) :
    stat (erase w (resolve p)) p = none := by
  unfold stat
  by_cases hp : p.isEmpty = true
  · simp [hp]
  · simp [hp, find_erase_self w _ hk]

/-- The backend accepts the removal of a path that does not exist. -/
theorem remove_missing (p : String) (w : World)
    (h : (memfs.exists p w).value = false) : (memfs.remove p w).ec.failed = false := by
  have hs : stat w p = none := by simpa [memfs.exists] using h
  simp [memfs.remove, hs, ok, error_code.failed]

/-- After a removal without error the path does not exist. -/
theorem remove_gone (p : String) (w : World)
    (h : (memfs.remove p w).ec.failed = false) :
    (memfs.exists p (memfs.remove p w).state).value = false := by
  unfold memfs.remove at h ⊢
  cases hs : stat w p with
  | none => simp [memfs.exists, hs]
  | some n =>
    cases n with
    | file m c =>
      obtain ⟨_, hk, _⟩ := stat_file w p m c hs
      simp [memfs.exists, stat_erase_self w p hk]
    | dir m =>
      simp only [hs] at h ⊢
      by_cases h1 : resolve p = []
      · simp [h1, EBUSY, error_code.failed] at h
      · by_cases h2 : children w (resolve p) ≠ []
        · simp [h1, h2, ENOTEMPTY, error_code.failed] at h
        · simp only [h1, h2, if_false]
          simp [memfs.exists, stat_erase_self w p h1]

/-- A rejected removal leaves the filesystem as it was. -/
theorem remove_rejected (p : String) (w : World)
    (h : (memfs.remove p w).ec.failed = true) : (memfs.remove p w).state = w := by
  unfold memfs.remove at h ⊢
  cases hs : stat w p with
  | none => simp
  | some n =>
    cases n with
    | file m c => simp [hs, ok, error_code.failed] at h
    | dir m =>
      simp only [hs] at h ⊢
      by_cases h1 : resolve p = []
      · simp [h1]
      · by_cases h2 : children w (resolve p) ≠ []
        · simp [h1, h2]
        · simp [h1, h2, ok, error_code.failed] at h

/-- On the in-memory filesystem the second of two consecutive removals of one
path meets the same verdict as the first: both accepted or both rejected. -/
theorem remove_twice_same (p : String) (w : World) :
    (memfs.remove p (memfs.remove p w).state).ec.failed = (memfs.remove p w).ec.failed := by
  cases h : (memfs.remove p w).ec.failed with
  | true => rw [remove_rejected p w h, h]
  | false => exact remove_missing p _ (remove_gone p w h)

/-- The reference backend delivers every entry of a directory: a handle holding
`n` locations lists exactly `n` entries. -/
theorem lists_length (w : World) (h : List Key) :
    backend.lists w h.length h = true := by
  induction h with
  | nil => simp [Backend.lists, backend]
  | cons k h ih =>
    have hi : (backend.dir_increment (k :: h) w).value = h := rfl
    have he : (backend.dir_increment (k :: h) w).ec.failed = false := by
      simp [backend, dir_increment, ok, error_code.failed]
    have hd : backend.dir_end = ([] : List Key) := rfl
    simp [Backend.lists, hi, he, hd, ih]

/-- Every directory of the in-memory filesystem is opened without an error and
listed entry by entry: the reference backend lists exactly as many entries as
the directory holds. -/
theorem directory_lists_children (w : World) (p : String) (m : Int)
    (h : stat w p = some (Node.dir m)) :
    (backend.dir_open p w).ec.failed = false ∧
    backend.lists w (children w (resolve p)).length (backend.dir_open p w).value = true := by
  have ho : backend.dir_open p w = ⟨children w (resolve p), ok⟩ := by
    simp [backend, dir_open, h]
  rw [ho]
  exact ⟨by simp [ok, error_code.failed], lists_length w _⟩

theorem read_put_self (w : World) (p : String) (m : Int) (c : List Nat)
    (hp : p.isEmpty = false) (hk : resolve p ≠ []) :
    read (put w (resolve p) (Node.file m c)) p = some c := by
  simp [read, stat, hp, find_put_self w _ _ hk]

theorem read_put_ne (w : World) (p q : String) (n : Node)
    (hne : resolve q ≠ resolve p) :
    read (put w (resolve p) n) q = read w q := by
  simp [read, stat, find_put_ne w _ _ n hne]

/-- Under `fail_if_exists` the backend rejects a copy onto an existing path. -/
theorem copy_file_exclusive (f t : String) (w : World) (h : (stat w t).isSome = true) :
    (memfs.copy_file f t copy_option.fail_if_exists w).ec.failed = true := by
  unfold memfs.copy_file
  cases hf : stat w f with
  | none => simp [ENOENT, error_code.failed]
  | some n =>
    cases n with
    | dir m => simp [EISDIR, error_code.failed]
    | file m c =>
      cases ht : stat w t with
      | none => simp [ht] at h
      | some n' => cases n' <;> simp [EEXIST, error_code.failed]

/-- Under `overwrite_if_exists` the backend copies a regular file onto another
regular file: no error, the destination afterwards holds the bytes the source
held, and the source still holds them. -/
theorem copy_file_overwrite (f t : String) (w : World) (m m' : Int) (c c' : List Nat)
    (hf : stat w f = some (Node.file m c)) (ht : stat w t = some (Node.file m' c'))
    (hne : resolve f ≠ resolve t) :
    (memfs.copy_file f t copy_option.overwrite_if_exists w).ec.failed = false ∧
    read (memfs.copy_file f t copy_option.overwrite_if_exists w).state t = some c ∧
    read (memfs.copy_file f t copy_option.overwrite_if_exists w).state f = some c := by
  obtain ⟨hte, htk, _⟩ := stat_file w t m' c' ht
  have hst : (memfs.copy_file f t copy_option.overwrite_if_exists w) =
      ⟨(), ok, put w (resolve t) (Node.file w.clock c)⟩ := by
    simp [memfs.copy_file, hf, ht, hne]
  rw [hst]
  refine ⟨by simp [ok, error_code.failed], read_put_self w t _ _ hte htk, ?_⟩
  rw [read_put_ne w t f _ hne]
  simp [read, hf]

end memfs

/-! ## The claims -/

namespace fs

open fs_boost (error_code Reply Outcome Backend copy_option file_status file_type)

/-- C1: each of the five query operations maps a backend error to its sentinel.
If the backend call set an error code, `exists`, `is_directory` and
`is_regular_file` return false, `last_write_time` returns 0 and `file_size`
returns `2^64 - 1`; if it set none, each returns the value the backend reported
(the reported size being a `uintmax_t`, below `2^64`). -/
theorem query_sentinels {σ H : Type} (B : Backend σ H) (p : path) (s : σ)
    (hsize : (B.file_size p.string s).value < 2 ^ 64) :
    («exists» B p s =
      if (B.exists p.string s).ec.failed then false else (B.exists p.string s).value) ∧
    (is_directory B p s =
      if (B.is_directory p.string s).ec.failed then false
      else (B.is_directory p.string s).value) ∧
    (is_regular_file B p s =
      if (B.is_regular_file p.string s).ec.failed then false
      else (B.is_regular_file p.string s).value) ∧
    (last_write_time B p s =
      if (B.last_write_time p.string s).ec.failed then 0
      else (B.last_write_time p.string s).value) ∧
    (file_size B p s =
      if (B.file_size p.string s).ec.failed then 2 ^ 64 - 1
      else (B.file_size p.string s).value) := by
  refine ⟨and_not_failed _ _, and_not_failed _ _, and_not_failed _ _, rfl, ?_⟩
  simp only [file_size, u64_of_int_neg_one, u64_of_uintmax, Nat.mod_eq_of_lt hsize]

/-- C1 at a path that does not exist and at an existing file of the sample
filesystem: the sentinels `false`, `false`, `false`, `0`, `2^64 - 1`, and the
size 3 of the file `a`. -/
theorem query_sentinels_witness :
    («exists» memfs.backend ⟨"nope"⟩ memfs.sample = false ∧
      is_directory memfs.backend ⟨"nope"⟩ memfs.sample = false ∧
      is_regular_file memfs.backend ⟨"nope"⟩ memfs.sample = false ∧
      last_write_time memfs.backend ⟨"nope"⟩ memfs.sample = 0 ∧
      file_size memfs.backend ⟨"nope"⟩ memfs.sample = 2 ^ 64 - 1) ∧
    (memfs.backend.file_size (path.string ⟨"a"⟩) memfs.sample).value < 2 ^ 64 ∧
    file_size memfs.backend ⟨"a"⟩ memfs.sample = 3 :=
  ⟨query_sentinels memfs.backend ⟨"nope"⟩ memfs.sample (by decide),
    by decide,
    (query_sentinels memfs.backend ⟨"a"⟩ memfs.sample (by decide)).2.2.2.2⟩

/-- C2, as stated, fails: in the sample filesystem `d` is a non-empty directory,
the backend rejects its removal, and `remove` returns false on the first call
and again on the second of two consecutive calls. -/
theorem remove_twice_nonempty_directory :
    is_directory memfs.backend ⟨"d"⟩ memfs.sample = true ∧
    (memfs.backend.remove "d" memfs.sample).ec = memfs.ENOTEMPTY ∧
    (remove memfs.backend ⟨"d"⟩ memfs.sample).1 = false ∧
    (remove memfs.backend ⟨"d"⟩ (remove memfs.backend ⟨"d"⟩ memfs.sample).2).1 = false := by
  decide

/-- C2, amended: `remove(p)` returns true when `p` does not exist, and the second
of two consecutive `remove(p)` calls returns true whenever the first one did.
This holds for every backend that reports no error when asked to remove a path
that does not exist and after whose error-free removal the path does not exist;
the reference backend is one, so there it holds in every filesystem state and
for every path. -/
theorem remove_twice_after_success :
    (∀ (σ H : Type) (B : Backend σ H) (p : path) (s : σ),
      (∀ t, (B.exists p.string t).value = false →
        (B.remove p.string t).ec.failed = false) →
      (∀ t, (B.remove p.string t).ec.failed = false →
        (B.exists p.string (B.remove p.string t).state).value = false) →
      ((B.exists p.string s).value = false → (remove B p s).1 = true) ∧
      ((remove B p s).1 = true → (remove B p (remove B p s).2).1 = true)) ∧
    (∀ (p : path) (w : memfs.World),
      («exists» memfs.backend p w = false → (remove memfs.backend p w).1 = true) ∧
      ((remove memfs.backend p w).1 = true →
        (remove memfs.backend p (remove memfs.backend p w).2).1 = true)) := by
  have gen : ∀ (σ H : Type) (B : Backend σ H) (p : path) (s : σ),
      (∀ t, (B.exists p.string t).value = false →
        (B.remove p.string t).ec.failed = false) →
      (∀ t, (B.remove p.string t).ec.failed = false →
        (B.exists p.string (B.remove p.string t).state).value = false) →
      ((B.exists p.string s).value = false → (remove B p s).1 = true) ∧
      ((remove B p s).1 = true → (remove B p (remove B p s).2).1 = true) := by
    intro σ H B p s hmissing hgone
    constructor
    · intro h
      simp [remove, hmissing s h]
    · intro h
      have h1 : (B.remove p.string s).ec.failed = false := by simpa [remove] using h
      have h2 := hmissing _ (hgone s h1)
      simpa [remove] using h2
  refine ⟨gen, fun p w => ?_⟩
  have hm := gen _ _ memfs.backend p w (fun t => memfs.remove_missing p.string t)
    (fun t => memfs.remove_gone p.string t)
  refine ⟨fun h => hm.1 ?_, hm.2⟩
  have hv : ((memfs.exists p.string w).value && !(memfs.exists p.string w).ec.failed)
      = false := h
  show (memfs.exists p.string w).value = false
  simpa [memfs.exists, memfs.ok, error_code.failed] using hv

/-- C2, amended, on the sample filesystem: the missing path `nope` is removed
with result true, and the file `a` is removed with result true twice in a row. -/
theorem remove_twice_after_success_witness :
    (remove memfs.backend ⟨"nope"⟩ memfs.sample).1 = true ∧
    (remove memfs.backend ⟨"a"⟩ memfs.sample).1 = true ∧
    (remove memfs.backend ⟨"a"⟩ (remove memfs.backend ⟨"a"⟩ memfs.sample).2).1 = true ∧
    (remove memfs.backend ⟨"e"⟩ (remove memfs.backend ⟨"e"⟩ memfs.sample).2).1 = true :=
  ⟨(remove_twice_after_success.2 ⟨"nope"⟩ memfs.sample).1 (by decide),
    by decide,
    (remove_twice_after_success.1 _ _ memfs.backend ⟨"a"⟩ memfs.sample
      (fun t => memfs.remove_missing "a" t) (fun t => memfs.remove_gone "a" t)).2
      (by decide),
    (remove_twice_after_success.2 ⟨"e"⟩ memfs.sample).2 (by decide)⟩

/-- C3: each of the six mutating operations returns false exactly when the
backend call set an error code and true exactly when it set none, and hands on
the filesystem the backend left; nothing else is reported. -/
theorem mutation_results {σ H : Type} (B : Backend σ H) (p q : path) (overwrite : Bool)
    (s : σ) :
    (((remove B p s).1 = false ↔ (B.remove p.string s).ec.failed = true) ∧
      ((remove B p s).1 = true ↔ (B.remove p.string s).ec.failed = false) ∧
      (remove B p s).2 = (B.remove p.string s).state) ∧
    (((remove_all B p s).1 = false ↔ (B.remove_all p.string s).ec.failed = true) ∧
      ((remove_all B p s).1 = true ↔ (B.remove_all p.string s).ec.failed = false) ∧
      (remove_all B p s).2 = (B.remove_all p.string s).state) ∧
    (((create_directory B p s).1 = false ↔
        (B.create_directory p.string s).ec.failed = true) ∧
      ((create_directory B p s).1 = true ↔
        (B.create_directory p.string s).ec.failed = false) ∧
      (create_directory B p s).2 = (B.create_directory p.string s).state) ∧
    (((create_directories B p s).1 = false ↔
        (B.create_directories p.string s).ec.failed = true) ∧
      ((create_directories B p s).1 = true ↔
        (B.create_directories p.string s).ec.failed = false) ∧
      (create_directories B p s).2 = (B.create_directories p.string s).state) ∧
    (((copy_file B p q overwrite s).1 = false ↔
        (B.copy_file p.string q.string
          (if overwrite then copy_option.overwrite_if_exists
            else copy_option.fail_if_exists) s).ec.failed = true) ∧
      ((copy_file B p q overwrite s).1 = true ↔
        (B.copy_file p.string q.string
          (if overwrite then copy_option.overwrite_if_exists
            else copy_option.fail_if_exists) s).ec.failed = false) ∧
      (copy_file B p q overwrite s).2 =
        (B.copy_file p.string q.string
          (if overwrite then copy_option.overwrite_if_exists
            else copy_option.fail_if_exists) s).state) ∧
    (((rename B p q s).1 = false ↔ (B.rename p.string q.string s).ec.failed = true) ∧
      ((rename B p q s).1 = true ↔ (B.rename p.string q.string s).ec.failed = false) ∧
      (rename B p q s).2 = (B.rename p.string q.string s).state) :=
  ⟨⟨not_eq_false_iff _, not_eq_true_iff _, rfl⟩,
    ⟨not_eq_false_iff _, not_eq_true_iff _, rfl⟩,
    ⟨not_eq_false_iff _, not_eq_true_iff _, rfl⟩,
    ⟨not_eq_false_iff _, not_eq_true_iff _, rfl⟩,
    ⟨not_eq_false_iff _, not_eq_true_iff _, rfl⟩,
    ⟨not_eq_false_iff _, not_eq_true_iff _, rfl⟩⟩

/-- C4: when the backend reports an error on opening, the constructed iterator
holds the end handle and `end()` is true at once; it is the very iterator that
results when the backend opens a directory without entries, that is, returns
the end handle without an error. -/
theorem open_error_exhausted {σ H : Type} [DecidableEq H] (B : Backend σ H) (p : path)
    (s : σ)
    (hopen : (B.dir_open (if p.empty then "./" else p.string) s).ec.failed = true) :
    directory_iterator.«end» B (directory_iterator.ctor B p s) = true ∧
    directory_iterator.ctor B p s = ⟨B.dir_end⟩ ∧
    ∀ (q : path) (t : σ),
      (B.dir_open (if q.empty then "./" else q.string) t).ec.failed = false →
      (B.dir_open (if q.empty then "./" else q.string) t).value = B.dir_end →
      directory_iterator.ctor B q t = directory_iterator.ctor B p s := by
  have hp : directory_iterator.ctor B p s = ⟨B.dir_end⟩ := by
    simp [directory_iterator.ctor, hopen]
  refine ⟨by rw [hp]; exact end_mk_dir_end B, hp, ?_⟩
  intro q t hok hval
  rw [hp]
  simp [directory_iterator.ctor, hok, hval]

/-- C4 on the reference backend: `nope` does not exist and `a` is a file, the
backend reports `ENOENT` and `ENOTDIR`, and both iterators are exhausted at
once, equal to the iterator opened on the empty directory `e`. -/
theorem open_error_exhausted_witness :
    (memfs.backend.dir_open "nope" memfs.sample).ec = memfs.ENOENT ∧
    (memfs.backend.dir_open "a" memfs.sample).ec = memfs.ENOTDIR ∧
    directory_iterator.«end» memfs.backend
      (directory_iterator.ctor memfs.backend ⟨"nope"⟩ memfs.sample) = true ∧
    directory_iterator.«end» memfs.backend
      (directory_iterator.ctor memfs.backend ⟨"a"⟩ memfs.sample) = true ∧
    directory_iterator.ctor memfs.backend ⟨"e"⟩ memfs.sample =
      directory_iterator.ctor memfs.backend ⟨"nope"⟩ memfs.sample :=
  ⟨by decide, by decide,
    (open_error_exhausted memfs.backend ⟨"nope"⟩ memfs.sample (by decide)).1,
    (open_error_exhausted memfs.backend ⟨"a"⟩ memfs.sample (by decide)).1,
    (open_error_exhausted memfs.backend ⟨"nope"⟩ memfs.sample (by decide)).2.2
      ⟨"e"⟩ memfs.sample (by decide) (by decide)⟩

/-- C5: `operator++` moves to the entry the backend moves to when the increment
succeeds and entries remain (`end()` stays false); when the backend reports an
error during the increment, or no entry remains (the backend yields the end
handle), the iterator holds the end handle afterwards and `end()` is true. -/
theorem increment_exhausts {σ H : Type} [DecidableEq H] (B : Backend σ H)
    (it : directory_iterator H) (s : σ) :
    ((B.dir_increment it.handle s).ec.failed = false →
      (B.dir_increment it.handle s).value ≠ B.dir_end →
      (directory_iterator.«operator++» B it s).handle = (B.dir_increment it.handle s).value ∧
      directory_iterator.«end» B (directory_iterator.«operator++» B it s) = false) ∧
    ((B.dir_increment it.handle s).ec.failed = true ∨
        (B.dir_increment it.handle s).value = B.dir_end →
      directory_iterator.«operator++» B it s = ⟨B.dir_end⟩ ∧
      directory_iterator.«end» B (directory_iterator.«operator++» B it s) = true) := by
  constructor
  · intro hok hne
    rw [increment_of_ok B it s hok]
    exact ⟨rfl, (end_eq_false_iff B _).2 hne⟩
  · intro h
    have hstep : directory_iterator.«operator++» B it s = ⟨B.dir_end⟩ := by
      cases hf : (B.dir_increment it.handle s).ec.failed with
      | true => exact increment_of_failed B it s hf
      | false =>
        rw [increment_of_ok B it s hf]
        rcases h with h | h
        · rw [hf] at h; cases h
        · rw [h]
    rw [hstep]
    exact ⟨rfl, end_mk_dir_end B⟩

/-- C5 on the sample filesystem: from the first entry of `d` the reference
backend moves to `d/g` and then, no entry remaining, to the end; the refusing
backend fails the increment with `EIO` and the iterator is exhausted. -/
theorem increment_exhausts_witness :
    directory_iterator.«operator++» memfs.backend ⟨[["d", "f"], ["d", "g"]]⟩ memfs.sample =
      ⟨[["d", "g"]]⟩ ∧
    directory_iterator.«end» memfs.backend
      (directory_iterator.«operator++» memfs.backend ⟨[["d", "g"]]⟩ memfs.sample) = true ∧
    (memfs.refusing.dir_increment [["d", "f"], ["d", "g"]] memfs.sample).ec = memfs.EIO ∧
    directory_iterator.«operator++» memfs.refusing ⟨[["d", "f"], ["d", "g"]]⟩ memfs.sample =
      ⟨memfs.refusing.dir_end⟩ ∧
    directory_iterator.«end» memfs.refusing
      (directory_iterator.«operator++» memfs.refusing ⟨[["d", "f"], ["d", "g"]]⟩
        memfs.sample) = true :=
  ⟨congrArg directory_iterator.mk
      ((increment_exhausts memfs.backend ⟨[["d", "f"], ["d", "g"]]⟩ memfs.sample).1
        (by decide) (by decide)).1,
    ((increment_exhausts memfs.backend ⟨[["d", "g"]]⟩ memfs.sample).2
      (Or.inr (by decide))).2,
    by decide,
    ((increment_exhausts memfs.refusing ⟨[["d", "f"], ["d", "g"]]⟩ memfs.sample).2
      (Or.inl (by decide))).1,
    ((increment_exhausts memfs.refusing ⟨[["d", "f"], ["d", "g"]]⟩ memfs.sample).2
      (Or.inl (by decide))).2⟩

/-- C6: for a directory containing `N` entries, the iterator opened on it reaches
`end()` after exactly `N` calls of `operator++`: `end()` is false after `k < N`
advances and true after the `N`-th.  This holds for every backend that opens
the directory without an error and lists exactly `N` entries for it (one after
the other, the end handle after the last), and so for every directory of the
reference backend, `N` being the number of entries the directory holds. -/
theorem exactly_n_advances :
    (∀ (σ H : Type) [DecidableEq H] (B : Backend σ H) (p : path) (s : σ) (N : Nat),
      (B.dir_open (if p.empty then "./" else p.string) s).ec.failed = false →
      B.lists s N (B.dir_open (if p.empty then "./" else p.string) s).value = true →
      (∀ k, k < N →
        directory_iterator.«end» B
          (directory_iterator.advance B s k (directory_iterator.ctor B p s)) = false) ∧
      directory_iterator.«end» B
        (directory_iterator.advance B s N (directory_iterator.ctor B p s)) = true) ∧
    (∀ (p : path) (w : memfs.World),
      is_directory memfs.backend p w = true →
      (∀ k, k < (memfs.children w (memfs.resolve p.string)).length →
        directory_iterator.«end» memfs.backend
          (directory_iterator.advance memfs.backend w k
            (directory_iterator.ctor memfs.backend p w)) = false) ∧
      directory_iterator.«end» memfs.backend
        (directory_iterator.advance memfs.backend w
          (memfs.children w (memfs.resolve p.string)).length
          (directory_iterator.ctor memfs.backend p w)) = true) := by
  have gen : ∀ (σ H : Type) [DecidableEq H] (B : Backend σ H) (p : path) (s : σ) (N : Nat),
      (B.dir_open (if p.empty then "./" else p.string) s).ec.failed = false →
      B.lists s N (B.dir_open (if p.empty then "./" else p.string) s).value = true →
      (∀ k, k < N →
        directory_iterator.«end» B
          (directory_iterator.advance B s k (directory_iterator.ctor B p s)) = false) ∧
      directory_iterator.«end» B
        (directory_iterator.advance B s N (directory_iterator.ctor B p s)) = true := by
    intro σ H _ B p s N hopen hlist
    have hp : directory_iterator.ctor B p s =
        ⟨(B.dir_open (if p.empty then "./" else p.string) s).value⟩ := by
      simp [directory_iterator.ctor, hopen]
    rw [hp]
    exact ⟨advance_not_end B s N _ hlist, advance_end B s N _ hlist⟩
  refine ⟨gen, fun p w hdir => ?_⟩
  have hs : ∃ m, memfs.stat w p.string = some (memfs.Node.dir m) := by
    simp only [is_directory, memfs.backend, memfs.is_directory] at hdir
    cases hst : memfs.stat w p.string with
    | none => simp [hst] at hdir
    | some n =>
      cases n with
      | file m c => simp [hst] at hdir
      | dir m => exact ⟨m, rfl⟩
  obtain ⟨m, hst⟩ := hs
  have hpe : p.empty = false := (memfs.stat_dir w p.string m hst).1
  obtain ⟨hopen, hlist⟩ := memfs.directory_lists_children w p.string m hst
  have harg : (if p.empty then "./" else p.string) = p.string := by simp [hpe]
  exact gen _ _ memfs.backend p w _ (by rw [harg]; exact hopen) (by rw [harg]; exact hlist)

/-- C6 on the sample filesystem: the directory `d` holds two entries; `end()` is
false after no advance and after one, and true after two. -/
theorem exactly_n_advances_witness :
    (memfs.children memfs.sample ["d"]).length = 2 ∧
    directory_iterator.«end» memfs.backend
      (directory_iterator.advance memfs.backend memfs.sample 0
        (directory_iterator.ctor memfs.backend ⟨"d"⟩ memfs.sample)) = false ∧
    directory_iterator.«end» memfs.backend
      (directory_iterator.advance memfs.backend memfs.sample 1
        (directory_iterator.ctor memfs.backend ⟨"d"⟩ memfs.sample)) = false ∧
    directory_iterator.«end» memfs.backend
      (directory_iterator.advance memfs.backend memfs.sample 2
        (directory_iterator.ctor memfs.backend ⟨"d"⟩ memfs.sample)) = true :=
  ⟨by decide,
    (exactly_n_advances.1 _ _ memfs.backend ⟨"d"⟩ memfs.sample 2 (by decide)
      (by decide)).1 0 (by decide),
    (exactly_n_advances.2 ⟨"d"⟩ memfs.sample (by decide)).1 1 (by decide),
    (exactly_n_advances.2 ⟨"d"⟩ memfs.sample (by decide)).2⟩

/-- C7, as stated, fails: in the sample filesystem `a` is a regular file and `d`
exists, yet `copy_file(a, d, true)` returns false, because the existing `d` is
a directory and the backend rejects the copy with `EISDIR`. -/
theorem copy_file_overwrite_can_fail :
    is_regular_file memfs.backend ⟨"a"⟩ memfs.sample = true ∧
    «exists» memfs.backend ⟨"d"⟩ memfs.sample = true ∧
    is_directory memfs.backend ⟨"d"⟩ memfs.sample = true ∧
    (memfs.backend.copy_file "a" "d" copy_option.overwrite_if_exists memfs.sample).ec =
      memfs.EISDIR ∧
    (copy_file memfs.backend ⟨"a"⟩ ⟨"d"⟩ true memfs.sample).1 = false := by
  decide

/-- C7, amended: `copy_file(a, b, overwrite)` passes the backend
`fail_if_exists` when `overwrite` is false and `overwrite_if_exists` when it is
true, and returns true exactly when the backend reports no error.  On the
reference backend, consequently, `copy_file(a, b, false)` returns false
whenever `b` exists, and `copy_file(a, b, true)` succeeds when `a` is an
existing regular file and `b` is another existing regular file, `b` then
holding the bytes `a` held at the time of the call and `a` still holding them. -/
theorem copy_file_option :
    (∀ (σ H : Type) (B : Backend σ H) (a b : path) (s : σ),
      copy_file B a b false s =
        (!(B.copy_file a.string b.string copy_option.fail_if_exists s).ec.failed,
          (B.copy_file a.string b.string copy_option.fail_if_exists s).state) ∧
      copy_file B a b true s =
        (!(B.copy_file a.string b.string copy_option.overwrite_if_exists s).ec.failed,
          (B.copy_file a.string b.string copy_option.overwrite_if_exists s).state)) ∧
    (∀ (a b : path) (w : memfs.World),
      «exists» memfs.backend b w = true →
      (copy_file memfs.backend a b false w).1 = false) ∧
    (∀ (a b : path) (w : memfs.World),
      is_regular_file memfs.backend a w = true →
      is_regular_file memfs.backend b w = true →
      memfs.resolve a.string ≠ memfs.resolve b.string →
      (copy_file memfs.backend a b true w).1 = true ∧
      memfs.read w a.string ≠ none ∧
      memfs.read (copy_file memfs.backend a b true w).2 b.string = memfs.read w a.string ∧
      memfs.read (copy_file memfs.backend a b true w).2 a.string =
        memfs.read w a.string) := by
  refine ⟨fun σ H B a b s => ⟨rfl, rfl⟩, ?_, ?_⟩
  · intro a b w hb
    have hs : (memfs.stat w b.string).isSome = true := by
      have : (memfs.backend.exists b.string w).value = true := by
        simp only [«exists», Bool.and_eq_true] at hb
        exact hb.1
      simpa [memfs.backend, memfs.exists] using this
    have := memfs.copy_file_exclusive a.string b.string w hs
    show (!(memfs.copy_file a.string b.string copy_option.fail_if_exists w).ec.failed) = false
    rw [this]
    rfl
  · intro a b w ha hb hne
    have ha1 : ∃ m c, memfs.stat w a.string = some (memfs.Node.file m c) := by
      simp only [is_regular_file, memfs.backend, memfs.is_regular_file] at ha
      cases hs : memfs.stat w a.string with
      | none => simp [hs] at ha
      | some n =>
        cases n with
        | file m c => exact ⟨m, c, rfl⟩
        | dir m => simp [hs] at ha
    have hb1 : ∃ m c, memfs.stat w b.string = some (memfs.Node.file m c) := by
      simp only [is_regular_file, memfs.backend, memfs.is_regular_file] at hb
      cases hs : memfs.stat w b.string with
      | none => simp [hs] at hb
      | some n =>
        cases n with
        | file m c => exact ⟨m, c, rfl⟩
        | dir m => simp [hs] at hb
    obtain ⟨m, c, hfa⟩ := ha1
    obtain ⟨m', c', hfb⟩ := hb1
    obtain ⟨h1, h2, h3⟩ :=
      memfs.copy_file_overwrite a.string b.string w m m' c c' hfa hfb hne
    have hra : memfs.read w a.string = some c := by simp [memfs.read, hfa]
    have hst : (copy_file memfs.backend a b true w).2 =
        (memfs.copy_file a.string b.string copy_option.overwrite_if_exists w).state := rfl
    have hres : (copy_file memfs.backend a b true w).1 =
        !(memfs.copy_file a.string b.string copy_option.overwrite_if_exists w).ec.failed :=
      rfl
    rw [hst, hres, h1, hra, h2, h3]
    exact ⟨rfl, by simp, rfl, rfl⟩

/-- C7, amended, on the sample filesystem: copying `a` onto the existing `b`
fails without `overwrite`; with `overwrite` it succeeds, `b` holds the bytes
1 2 3 that `a` held, and `a` still holds them. -/
theorem copy_file_option_witness :
    (copy_file memfs.backend ⟨"a"⟩ ⟨"b"⟩ false memfs.sample).1 = false ∧
    (copy_file memfs.backend ⟨"a"⟩ ⟨"b"⟩ true memfs.sample).1 = true ∧
    memfs.read memfs.sample "a" = some [1, 2, 3] ∧
    memfs.read (copy_file memfs.backend ⟨"a"⟩ ⟨"b"⟩ true memfs.sample).2 "b" =
      some [1, 2, 3] ∧
    memfs.read (copy_file memfs.backend ⟨"a"⟩ ⟨"b"⟩ true memfs.sample).2 "a" =
      some [1, 2, 3] :=
  ⟨copy_file_option.2.1 ⟨"a"⟩ ⟨"b"⟩ memfs.sample (by decide),
    (copy_file_option.2.2 ⟨"a"⟩ ⟨"b"⟩ memfs.sample (by decide) (by decide)
      (by decide)).1,
    by decide,
    (copy_file_option.2.2 ⟨"a"⟩ ⟨"b"⟩ memfs.sample (by decide) (by decide)
      (by decide)).2.2.1,
    (copy_file_option.2.2 ⟨"a"⟩ ⟨"b"⟩ memfs.sample (by decide) (by decide)
      (by decide)).2.2.2⟩

/-- C8: the iterator's `is_directory()` and `is_regular_file()` return false
whenever the backend reports an error while querying the entry's status, and
otherwise return true exactly when the reported status is a directory,
respectively a regular file. -/
theorem entry_type_queries {σ H : Type} (B : Backend σ H) (it : directory_iterator H)
    (s : σ) :
    (directory_iterator.is_directory B it s =
      if (B.dir_status it.handle s).ec.failed then false
      else decide ((B.dir_status it.handle s).value.type = file_type.directory_file)) ∧
    (directory_iterator.is_regular_file B it s =
      if (B.dir_status it.handle s).ec.failed then false
      else decide ((B.dir_status it.handle s).value.type = file_type.regular_file)) :=
  ⟨and_not_failed _ _, and_not_failed _ _⟩

/-- C9: the constructor asks the backend to enumerate `"./"` when `p.empty()`
holds and `p.string()` otherwise; so the iterator for an empty path is the
iterator opened on `"./"`, with the same entry names and the same `end()` after
any number of advances. -/
theorem empty_path_opens_current_directory {σ H : Type} [DecidableEq H] (B : Backend σ H)
    (p : path) (s : σ) :
    (p.empty = true →
      directory_iterator.ctor B p s =
        if (B.dir_open "./" s).ec.failed then ⟨B.dir_end⟩
        else ⟨(B.dir_open "./" s).value⟩) ∧
    (p.empty = false →
      directory_iterator.ctor B p s =
        if (B.dir_open p.string s).ec.failed then ⟨B.dir_end⟩
        else ⟨(B.dir_open p.string s).value⟩) ∧
    (p.empty = true →
      directory_iterator.ctor B p s = directory_iterator.ctor B ⟨"./"⟩ s ∧
      ∀ k,
        directory_iterator.name B
            (directory_iterator.advance B s k (directory_iterator.ctor B p s)) =
          directory_iterator.name B
            (directory_iterator.advance B s k (directory_iterator.ctor B ⟨"./"⟩ s)) ∧
        directory_iterator.«end» B
            (directory_iterator.advance B s k (directory_iterator.ctor B p s)) =
          directory_iterator.«end» B
            (directory_iterator.advance B s k (directory_iterator.ctor B ⟨"./"⟩ s))) := by
  have hdot : (path.empty ⟨"./"⟩) = false := by decide
  have hdots : (path.string ⟨"./"⟩) = "./" := rfl
  have heq : p.empty = true →
      directory_iterator.ctor B p s = directory_iterator.ctor B ⟨"./"⟩ s := by
    intro h
    simp [directory_iterator.ctor, h, hdot, hdots]
  refine ⟨?_, ?_, ?_⟩
  · intro h
    simp [directory_iterator.ctor, h]
  · intro h
    simp [directory_iterator.ctor, h]
  · intro h
    refine ⟨heq h, fun k => ?_⟩
    rw [heq h]
    exact ⟨rfl, rfl⟩

/-- C9 on the sample filesystem: the iterator for the empty path visits the
entries `a`, `b`, `d`, `e` of the current directory, as the one for `"./"`. -/
theorem empty_path_opens_current_directory_witness :
    directory_iterator.ctor memfs.backend ⟨""⟩ memfs.sample =
      directory_iterator.ctor memfs.backend ⟨"./"⟩ memfs.sample ∧
    directory_iterator.ctor memfs.backend ⟨""⟩ memfs.sample =
      ⟨[["a"], ["b"], ["d"], ["e"]]⟩ ∧
    directory_iterator.ctor memfs.backend ⟨"d"⟩ memfs.sample =
      ⟨[["d", "f"], ["d", "g"]]⟩ :=
  ⟨((empty_path_opens_current_directory memfs.backend ⟨""⟩ memfs.sample).2.2
      (by decide)).1,
    (empty_path_opens_current_directory memfs.backend ⟨""⟩ memfs.sample).1 (by decide),
    (empty_path_opens_current_directory memfs.backend ⟨"d"⟩ memfs.sample).2.1 (by decide)⟩

/-- C10: the results of `create_directory`, `create_directories`, `remove` and
`remove_all` are the negated error condition of the backend call, whatever
value the backend returned: two backend outcomes with the same error code give
the same result.  In particular, when the backend reports no error and returns
false (nothing was created), `create_directory` returns true; on the sample
filesystem this happens for the existing directory `d`, the filesystem being
left unchanged. -/
theorem result_ignores_backend_value {σ H : Type} (B B' : Backend σ H) (p p' : path)
    (s s' : σ) :
    ((create_directory B p s).1 = !(B.create_directory p.string s).ec.failed ∧
      (create_directories B p s).1 = !(B.create_directories p.string s).ec.failed ∧
      (remove B p s).1 = !(B.remove p.string s).ec.failed ∧
      (remove_all B p s).1 = !(B.remove_all p.string s).ec.failed) ∧
    (((B.create_directory p.string s).ec = (B'.create_directory p'.string s').ec →
        (create_directory B p s).1 = (create_directory B' p' s').1) ∧
      ((B.create_directories p.string s).ec = (B'.create_directories p'.string s').ec →
        (create_directories B p s).1 = (create_directories B' p' s').1) ∧
      ((B.remove p.string s).ec = (B'.remove p'.string s').ec →
        (remove B p s).1 = (remove B' p' s').1) ∧
      ((B.remove_all p.string s).ec = (B'.remove_all p'.string s').ec →
        (remove_all B p s).1 = (remove_all B' p' s').1)) ∧
    ((B.create_directory p.string s).ec.failed = false →
      (B.create_directory p.string s).value = false →
      (create_directory B p s).1 = true) ∧
    (is_directory memfs.backend ⟨"d"⟩ memfs.sample = true ∧
      (memfs.backend.create_directory "d" memfs.sample).value = false ∧
      (memfs.backend.create_directory "d" memfs.sample).ec.failed = false ∧
      create_directory memfs.backend ⟨"d"⟩ memfs.sample = (true, memfs.sample)) := by
  refine ⟨⟨rfl, rfl, rfl, rfl⟩, ⟨?_, ?_, ?_, ?_⟩, ?_, by decide⟩
  · intro h; simp [create_directory, h]
  · intro h; simp [create_directories, h]
  · intro h; simp [remove, h]
  · intro h; simp [remove_all, h]
  · intro h _; simp [create_directory, h]

/-- C10 on the sample filesystem: for the existing directory `d` the backend
reports no error and returns false, and `create_directory` returns true; for
`a/x`, below a regular file, it reports `ENOTDIR` and the result is false. -/
theorem result_ignores_backend_value_witness :
    (create_directory memfs.backend ⟨"d"⟩ memfs.sample).1 = true ∧
    (memfs.backend.create_directory "a/x" memfs.sample).ec = memfs.ENOTDIR ∧
    (create_directory memfs.backend ⟨"a/x"⟩ memfs.sample).1 = false ∧
    (create_directory memfs.backend ⟨"d"⟩ memfs.sample).1 =
      (create_directory memfs.backend ⟨"e"⟩ memfs.sample).1 :=
  ⟨(result_ignores_backend_value memfs.backend memfs.backend ⟨"d"⟩ ⟨"d"⟩ memfs.sample
      memfs.sample).2.2.1 (by decide) (by decide),
    by decide,
    (result_ignores_backend_value memfs.backend memfs.backend ⟨"a/x"⟩ ⟨"d"⟩ memfs.sample
      memfs.sample).1.1,
    (result_ignores_backend_value memfs.backend memfs.backend ⟨"d"⟩ ⟨"e"⟩ memfs.sample
      memfs.sample).2.1.1 (by decide)⟩

end fs
